import Mathlib

/-!
Verification development for the natural-language DynamoDB query
interpreter (`smartQuery` and its helper `findBestAttributeMatch`).

The TypeScript source is shallowly embedded below:
  * strings are Lean `String`s (character lists for the text scanners);
  * JavaScript numbers are modelled as exact scaled decimals (`JSNum`,
    an integer mantissa over a power-of-ten denominator; floating-point
    rounding and non-finite values are outside the model);
  * the specific regular expressions used by the source are embedded as
    dedicated scanning functions with JavaScript's leftmost-match,
    ordered-alternation, greedy-with-backtracking semantics for exactly
    those patterns;
  * the DynamoDB store is an explicit collaborator record, and
    `smartQuery` returns both its result object and the trace of store
    calls it made, with store failures modelled via `Except`.
-/

namespace DynamoSmart

/-- JavaScript whitespace (`\s`), restricted to the ASCII range. -/
def jsWs (c : Char) : Bool :=
  c = ' ' || c = '\t' || c = '\n' || c = '\r' || c = '\x0b' || c = '\x0c'

/-- ASCII letter, by code point. -/
def isAsciiLetter (c : Char) : Bool :=
  (97 ≤ c.toNat && c.toNat ≤ 122) || (65 ≤ c.toNat && c.toNat ≤ 90)

/-- ASCII digit, by code point. -/
def isDigitChar (c : Char) : Bool := 48 ≤ c.toNat && c.toNat ≤ 57

/-- JavaScript word character (`\w`): ASCII letters, digits, underscore. -/
def isWordChar (c : Char) : Bool :=
  isAsciiLetter c || isDigitChar c || c = '_'

/-- ASCII lowercasing of one character (model of `String.prototype.toLowerCase`). -/
def lowerChar (c : Char) : Char :=
  if 65 ≤ c.toNat && c.toNat ≤ 90 then Char.ofNat (c.toNat + 32) else c

def lowerChars (l : List Char) : List Char := l.map lowerChar

/-- Model of `String.prototype.toLowerCase`. -/
def lowerS (s : String) : String := ⟨lowerChars s.data⟩

/-- Model of `haystack.includes(needle)` on character lists. -/
def containsSub (haystack needle : List Char) : Bool :=
  needle.isPrefixOf haystack ||
    match haystack with
    | [] => false
    | _ :: t => containsSub t needle

/-- Model of `haystack.includes(needle)` on strings. -/
def containsS (haystack needle : String) : Bool :=
  containsSub haystack.data needle.data

/-- Leading run of JavaScript whitespace. -/
def wsRun (l : List Char) : Nat := (l.takeWhile jsWs).length

/-- Case-insensitive literal prefix test (the pattern literal is given
lowercased; the text is lowercased character by character). -/
def ciStartsWith (lit : List Char) (l : List Char) : Bool :=
  lit.isPrefixOf (lowerChars (l.take lit.length))

/-- Word-boundary search `\b(lit)\b` for a `\w`-only literal `lit` against
`l`, tracking whether the previous character was a word character.
Models `lowerQuery.match(/\b(...)\b/i)` as a boolean test. -/
def wbFind (lit : List Char) : Bool → List Char → Bool
  | prevWord, l =>
    (!prevWord && lit.isPrefixOf l &&
      (match l.drop lit.length with
       | [] => true
       | c :: _ => !isWordChar c)) ||
    match l with
    | [] => false
    | c :: t => wbFind lit (isWordChar c) t

/-- Model of `text.match(/\b(alt₁|alt₂|…)\b/i)` as a boolean test: some alternative
matches at a word boundary.  `text` is assumed already lowercased (the
source always matches against `lowerQuery`) and the alternatives are given
lowercased. -/
def wordBoundaryAny (alts : List (List Char)) (text : List Char) : Bool :=
  alts.any (fun a => wbFind a false text)

/--
Embedding of the source's `keywordMap` (part_000 lines 257–268): ordered
`(trigger alternatives, candidate attribute-name fragments)` pairs.
Triggers are the lowercased alternatives of each `\b(...)\b/i` pattern.
-/
def keywordMap : List (List (List Char) × List String) :=
  [ (["from".data, "source".data], ["SourceCountry", "source", "from"]),
    (["to".data, "destination".data], ["DestinationCountry", "destination", "to"]),
    (["amt".data, "cost".data, "price".data, "value".data],
      ["Amount", "amount", "cost", "price", "value"]),
    (["when".data, "day".data, "time".data, "period".data],
      ["Date", "date", "timestamp"]),
    (["type".data, "category".data], ["TradeType", "type", "category"]) ]

/--
Embedding of `findBestAttributeMatch` (part_000 lines 245–283):
1. direct case-insensitive substring match, first attribute in schema order;
2. otherwise the first keyword-class rule whose trigger matches the
   lowercased query at a word boundary and whose candidate fragment list
   contains a fragment appearing (case-insensitively) inside some schema
   attribute name — first fragment, first attribute, in listed order.
-/
def findBestAttributeMatch (queryText : String) (attributeNames : List String) :
    Option String :=
  let lowerQuery := lowerChars queryText.data
  match attributeNames.find? (fun attr => containsSub lowerQuery (lowerChars attr.data)) with
  | some attr => some attr
  | none =>
    keywordMap.findSome? (fun rule =>
      if wordBoundaryAny rule.1 lowerQuery then
        rule.2.findSome? (fun m =>
          attributeNames.find? (fun a => containsSub (lowerChars a.data) (lowerChars m.data)))
      else none)

/-! ### Embedded regular expressions

Each pattern used by the source is embedded as a dedicated scanner with
JavaScript `String.prototype.match` semantics for that pattern: positions
are tried left to right, alternatives in listed order, quantifiers are
greedy.  Backtracking is worked out per pattern: each has the shape
`…⟨ws run⟩⟨char class⟩+` where the character class contains `\s`, so when
the greedy whitespace run leaves nothing for the final `+`, giving back a
single whitespace character (which the class accepts) is the only
backtracking that can succeed; giving back `\w+` characters never helps
because a word character can start neither a whitespace run nor an
operator. -/

/-- Character class `[A-Za-z0-9\s.-]` (value class of the natural-operator
and explicit-operator patterns). -/
def inClass1 (c : Char) : Bool :=
  isAsciiLetter c || isDigitChar c || jsWs c || c = '.' || c = '-'

/-- Character class `[A-Za-z0-9\s-]` (value class of the bare
attribute-value pattern). -/
def inClass2 (c : Char) : Bool :=
  isAsciiLetter c || isDigitChar c || jsWs c || c = '-'

/-- Match `\s{minWs,}(cls)+` at the start of `rest`, returning the captured
class run.  Greedy whitespace first; if the class run after it is empty,
back off one whitespace character (the class contains `\s`) when the
quantifier still allows it. -/
def valueTail (cls : Char → Bool) (minWs : Nat) (rest : List Char) : Option (List Char) :=
  let w := wsRun rest
  if w < minWs then none
  else
    let c := (rest.drop w).takeWhile cls
    if c ≠ [] then some c
    else if minWs + 1 ≤ w then some ((rest.drop (w - 1)).takeWhile cls)
    else none

/-- Alternatives of `/(after|before|less than|greater than)/i`, lowercased,
in source order. -/
def natKeywords : List (List Char) :=
  ["after".data, "before".data, "less than".data, "greater than".data]

/-- Try `/(after|before|less than|greater than)\s+([A-Za-z0-9\s.-]+)/i`
anchored at the start of `l`; returns (group 1 in original case, group 2). -/
def tryNatAt (l : List Char) : Option (List Char × List Char) :=
  natKeywords.findSome? (fun kw =>
    if ciStartsWith kw l then
      match valueTail inClass1 1 (l.drop kw.length) with
      | some v => some (l.take kw.length, v)
      | none => none
    else none)

def naturalOpScan : List Char → Option (List Char × List Char)
  | [] => none
  | c :: t =>
    match tryNatAt (c :: t) with
    | some r => some r
    | none => naturalOpScan t

/-- Model of `queryText.match(/(after|before|less than|greater than)\s+([A-Za-z0-9\s.-]+)/i)`
(part_000 line 401), returning groups 1 and 2 of the leftmost match. -/
def naturalOpMatch (s : String) : Option (String × String) :=
  (naturalOpScan s.data).map (fun r => (⟨r.1⟩, ⟨r.2⟩))

/-- Operator alternatives `>=|<=|>|<|=` in source order. -/
def opLits : List (List Char) := [">=".data, "<=".data, ">".data, "<".data, "=".data]

/-- Try `/(\w+)\s*(>=|<=|>|<|=)\s*([A-Za-z0-9\s.-]+)/i` anchored at the
start of `l`.  When `>=` (resp. `<=`) matches as a prefix but the value
part then fails, retrying with `>` (resp. `<`) leaves `=` — not in the
value class and not whitespace — as the next character, so the retry also
fails; first-prefix selection is therefore exact. -/
def tryExplicitAt (l : List Char) : Option (List Char × List Char × List Char) :=
  let w := l.takeWhile isWordChar
  if w = [] then none
  else
    let afterW := l.drop w.length
    let afterWs := afterW.drop (wsRun afterW)
    match opLits.findSome? (fun op => if op.isPrefixOf afterWs then some op else none) with
    | none => none
    | some op =>
      match valueTail inClass1 0 (afterWs.drop op.length) with
      | some v => some (w, op, v)
      | none => none

def explicitScan : List Char → Option (List Char × List Char × List Char)
  | [] => none
  | c :: t =>
    match tryExplicitAt (c :: t) with
    | some r => some r
    | none => explicitScan t

/-- Model of `queryText.match(/(\w+)\s*(>=|<=|>|<|=)\s*([A-Za-z0-9\s.-]+)/i)`
(part_000 line 419), returning groups 1–3 of the leftmost match. -/
def explicitMatch (s : String) : Option (String × String × String) :=
  (explicitScan s.data).map (fun r => (⟨r.1⟩, ⟨r.2.1⟩, ⟨r.2.2⟩))

/-- Try `/(\w+)\s+([A-Za-z0-9\s-]+)/i` anchored at the start of `l`. -/
def trySimpleAt (l : List Char) : Option (List Char × List Char) :=
  let w := l.takeWhile isWordChar
  if w = [] then none
  else
    match valueTail inClass2 1 (l.drop w.length) with
    | some v => some (w, v)
    | none => none

def simpleScan : List Char → Option (List Char × List Char)
  | [] => none
  | c :: t =>
    match trySimpleAt (c :: t) with
    | some r => some r
    | none => simpleScan t

/-- Model of `queryText.match(/(\w+)\s+([A-Za-z0-9\s-]+)/i)` (part_000 line 435),
returning groups 1 and 2 of the leftmost match. -/
def simpleMatch (s : String) : Option (String × String) :=
  (simpleScan s.data).map (fun r => (⟨r.1⟩, ⟨r.2⟩))

/-- Pattern `\d{4}[-\/]\d{2}[-\/]\d{2}` anchored at the start of `l` (separator
is a hyphen or a slash). -/
def dateAt : List Char → Bool
  | y1 :: y2 :: y3 :: y4 :: s1 :: m1 :: m2 :: s2 :: d1 :: d2 :: _ =>
    isDigitChar y1 && isDigitChar y2 && isDigitChar y3 && isDigitChar y4 &&
    (s1 = '-' || s1 = '/') && isDigitChar m1 && isDigitChar m2 &&
    (s2 = '-' || s2 = '/') && isDigitChar d1 && isDigitChar d2
  | _ => false

/-- Model of `value.match(/\d{4}[-\/]\d{2}[-\/]\d{2}/)` as a boolean test
(part_000 line 356: `datePattern`). -/
def datePatternTest (l : List Char) : Bool :=
  dateAt l ||
    match l with
    | [] => false
    | _ :: t => datePatternTest t

/-! ### JavaScript number and date coercions

JavaScript numbers reaching this code are decimal literals; they are
modelled exactly as scaled decimals `mant / 10^dexp` with an integer
mantissa, which keeps every operation kernel-computable.  `JSNum.toRat`
gives the denoted rational; order and zeroness agree with the denotation
(`JSNum.leb_iff_toRat`, below).  Floating-point rounding and non-finite
values are outside the model. -/

structure JSNum where
  mant : Int
  dexp : Nat
deriving DecidableEq, Repr

/-- Power `10 ^ k` over `Int`, structurally. -/
def pow10 : Nat → Int
  | 0 => 1
  | n + 1 => 10 * pow10 n

/-- The rational number a `JSNum` denotes. -/
def JSNum.toRat (n : JSNum) : ℚ := (n.mant : ℚ) / (10 : ℚ) ^ n.dexp

/-- Numeric `≤` on scaled decimals, by cross-multiplication. -/
def JSNum.leb (a b : JSNum) : Bool :=
  decide (a.mant * pow10 b.dexp ≤ b.mant * pow10 a.dexp)

def JSNum.neg (n : JSNum) : JSNum := ⟨-n.mant, n.dexp⟩

def digitsToNat (l : List Char) : Nat :=
  l.foldl (fun acc c => 10 * acc + (c.toNat - 48)) 0

/-- Scale a number by `10^e` for a signed exponent (exact). -/
def scalePow10 (n : JSNum) (e : Int) : JSNum :=
  if 0 ≤ e then ⟨n.mant * pow10 e.toNat, n.dexp⟩ else ⟨n.mant, n.dexp + (-e).toNat⟩

/-- Exponent part of a decimal literal: `[eE][+-]?digits`.  The leading
`e`/`E` has already been consumed; `none` means the digits are missing, in
which case the literal ends before the `e`. -/
def expDigits : List Char → Option Int
  | '+' :: t =>
    if t.takeWhile isDigitChar = [] then none
    else some (digitsToNat (t.takeWhile isDigitChar))
  | '-' :: t =>
    if t.takeWhile isDigitChar = [] then none
    else some (-(digitsToNat (t.takeWhile isDigitChar) : Int))
  | t =>
    if t.takeWhile isDigitChar = [] then none
    else some (digitsToNat (t.takeWhile isDigitChar))

/-- Unsigned decimal mantissa `digits [. digits]` read greedily from the
front of `l`; returns the value and the remaining characters, or `none`
when neither integer nor fraction digits are present.  The value of
`a.b` is `digitsToNat (a ++ b) / 10^|b|`. -/
def decMantissa (l : List Char) : Option (JSNum × List Char) :=
  let intD := l.takeWhile isDigitChar
  let rest1 := l.drop intD.length
  let fracD :=
    match rest1 with
    | '.' :: t => t.takeWhile isDigitChar
    | _ => []
  let rest2 :=
    match rest1 with
    | '.' :: t => t.drop fracD.length
    | _ => rest1
  if intD = [] && fracD = [] then none
  else some (⟨(digitsToNat (intD ++ fracD) : Int), fracD.length⟩, rest2)

/--
`!isNaN(parseFloat(value)) && isFinite(parseFloat(value)) ? parseFloat(value) : …`
(part_000 line 383) as one function: `some q` exactly when `parseFloat`
yields a finite number, modelled over exact rationals.  `parseFloat` skips
leading whitespace, reads an optional sign, then the longest prefix that is
a decimal literal (`Infinity` gives a non-finite result, hence `none`);
trailing characters are ignored; no parsable prefix is `NaN`, hence `none`.
-/
def jsParseFloatFinite (s : String) : Option JSNum :=
  let l := s.data.dropWhile jsWs
  let isNeg := l.head? = some '-'
  let l1 := if l.head? = some '-' || l.head? = some '+' then l.drop 1 else l
  if "Infinity".data.isPrefixOf l1 then none
  else
    match decMantissa l1 with
    | none => none
    | some (mant, rest) =>
      let e : Int :=
        match rest with
        | 'e' :: t => (expDigits t).getD 0
        | 'E' :: t => (expDigits t).getD 0
        | _ => 0
      let v := scalePow10 mant e
      some (if isNeg then v.neg else v)

/-- Hexadecimal digit value, by code point. -/
def hexDigitVal (c : Char) : Option Nat :=
  if isDigitChar c then some (c.toNat - 48)
  else if 97 ≤ c.toNat && c.toNat ≤ 102 then some (c.toNat - 87)
  else if 65 ≤ c.toNat && c.toNat ≤ 70 then some (c.toNat - 55)
  else none

/-- Digits of a non-decimal integer literal in base `b`, requiring every
character to be a digit of that base. -/
def radixNat (b : Nat) (dig : Char → Option Nat) : List Char → Option Nat
  | [] => none
  | l => l.foldl (fun acc c =>
      match acc, dig c with
      | some a, some d => some (a * b + d)
      | _, _ => none) (some 0)

/-- Number of characters spanned by `[+-]?digits` at the front of `l`. -/
def expSpan (l : List Char) : Nat :=
  match l with
  | '+' :: r => 1 + (r.takeWhile isDigitChar).length
  | '-' :: r => 1 + (r.takeWhile isDigitChar).length
  | r => (r.takeWhile isDigitChar).length

/--
`Number(string)` restricted to finite results (`some q`; `none` models
`NaN` and the non-finite values, which the exact-rational model cannot
represent — the caller below maps them to `0`).  Models ECMA-262
`StringToNumber`: trim whitespace, empty string is `0`, then the entire
remainder must be a signed decimal literal, `Infinity`, or an unsigned
`0x`/`0o`/`0b` integer literal.
-/
def jsNumberFinite (s : String) : Option JSNum :=
  let l := (s.data.dropWhile jsWs).reverse.dropWhile jsWs |>.reverse
  match l with
  | [] => some ⟨0, 0⟩
  | '0' :: 'x' :: t => (radixNat 16 hexDigitVal t).map (fun n => (⟨(n : Int), 0⟩ : JSNum))
  | '0' :: 'X' :: t => (radixNat 16 hexDigitVal t).map (fun n => (⟨(n : Int), 0⟩ : JSNum))
  | '0' :: 'o' :: t =>
    (radixNat 8 (fun c => if 48 ≤ c.toNat && c.toNat ≤ 55 then some (c.toNat - 48) else none)
      t).map (fun n => (⟨(n : Int), 0⟩ : JSNum))
  | '0' :: 'O' :: t =>
    (radixNat 8 (fun c => if 48 ≤ c.toNat && c.toNat ≤ 55 then some (c.toNat - 48) else none)
      t).map (fun n => (⟨(n : Int), 0⟩ : JSNum))
  | '0' :: 'b' :: t =>
    (radixNat 2 (fun c => if c = '0' then some 0 else if c = '1' then some 1 else none) t).map
      (fun n => (⟨(n : Int), 0⟩ : JSNum))
  | '0' :: 'B' :: t =>
    (radixNat 2 (fun c => if c = '0' then some 0 else if c = '1' then some 1 else none) t).map
      (fun n => (⟨(n : Int), 0⟩ : JSNum))
  | _ =>
    let isNeg := l.head? = some '-'
    let l1 := if l.head? = some '-' || l.head? = some '+' then l.drop 1 else l
    if l1 = "Infinity".data then none
    else
      match decMantissa l1 with
      | none => none
      | some (mant, rest) =>
        let signed := fun (v : JSNum) => if isNeg then v.neg else v
        match rest with
        | [] => some (signed mant)
        | 'e' :: t =>
          match expDigits t with
          | some e => if t.drop (expSpan t) = [] then some (signed (scalePow10 mant e)) else none
          | none => none
        | 'E' :: t =>
          match expDigits t with
          | some e => if t.drop (expSpan t) = [] then some (signed (scalePow10 mant e)) else none
          | none => none
        | _ => none

def isLeapYear (y : Nat) : Bool :=
  (y % 4 = 0 && y % 100 ≠ 0) || y % 400 = 0

def daysInMonth (y m : Nat) : Nat :=
  if m = 1 || m = 3 || m = 5 || m = 7 || m = 8 || m = 10 || m = 12 then 31
  else if m = 4 || m = 6 || m = 9 || m = 11 then 30
  else if isLeapYear y then 29
  else 28

/--
Model of `new Date(value)` followed by the validity check
`!isNaN(date.getTime())` and `date.toISOString().split('T')[0]`
(part_000 lines 373–377), for the strings this code path can produce
(characters limited to alphanumerics, whitespace, `.` and `-`).

Per ECMA-262, a string that is exactly a date-only form `YYYY-MM-DD` of the
Date Time String Format is parsed as UTC midnight of that calendar date
(fields out of calendar range give an invalid date), and
`toISOString().split('T')[0]` then returns the very same `YYYY-MM-DD`
string.  Strings not in that format fall to implementation-specific
heuristic parsing; the model treats them as invalid dates, so the caller
falls back to the raw string.
-/
def jsDateToISO (s : String) : Option String :=
  match s.data with
  | [y1, y2, y3, y4, '-', m1, m2, '-', d1, d2] =>
    if isDigitChar y1 && isDigitChar y2 && isDigitChar y3 && isDigitChar y4 &&
        isDigitChar m1 && isDigitChar m2 && isDigitChar d1 && isDigitChar d2 then
      let y := digitsToNat [y1, y2, y3, y4]
      let m := digitsToNat [m1, m2]
      let d := digitsToNat [d1, d2]
      if 1 ≤ m && m ≤ 12 && 1 ≤ d && d ≤ daysInMonth y m then some s else none
    else none
  | _ => none

/-! ### Values, value typing, and filter assembly -/

/-- An unmarshalled DynamoDB attribute value, as far as this code
observes it. -/
inductive Val where
  | num (n : JSNum)
  | str (s : String)
  | bool (b : Bool)
  | null
deriving DecidableEq, Repr

/-- Single quote as a character, written by code point to keep the text plain. -/
def squote : Char := Char.ofNat 39

/-- Double quote as a character, written by code point to keep the text plain. -/
def dquote : Char := Char.ofNat 34

/-- Model of `rawValue.trim()` (JavaScript `trim` strips whitespace at both ends). -/
def jsTrim (l : List Char) : List Char :=
  ((l.dropWhile jsWs).reverse.dropWhile jsWs).reverse

/-- Model of `.replace(/['"]/g, '')`: delete every single or double quote. -/
def stripQuotes (l : List Char) : List Char :=
  l.filter (fun c => !(c = squote || c = dquote))

/--
Value typing inside `processAndAddFilter` (part_000 lines 368–384): if the
target attribute's lowercased name contains `date` or `time` and the value
matches the date pattern, normalize through the date parser with the raw
string as fallback; otherwise a value whose `parseFloat` is a finite number
becomes that number, and anything else stays a string.
-/
def typeValue (targetAttribute : String) (value : String) : Val :=
  let isDateField :=
    containsS (lowerS targetAttribute) "date" || containsS (lowerS targetAttribute) "time"
  if isDateField && datePatternTest value.data then
    match jsDateToISO value with
    | some d => Val.str d
    | none => Val.str value
  else
    match jsParseFloatFinite value with
    | some q => Val.num q
    | none => Val.str value

/-- The mutable filter-assembly state of one `smartQuery` request:
`valueIndex`, `filterParts`, `expressionAttributeNames`,
`expressionAttributeValues` (part_000 lines 313–316, 354). -/
structure FilterState where
  valueIndex : Nat
  filterParts : List String
  exprNames : List (String × String)
  exprValues : List (String × Val)
deriving DecidableEq, Repr

def initFilterState : FilterState := ⟨0, [], [], []⟩

/--
Embedding of the closure `processAndAddFilter` (part_000 lines 360–394).
`none` models the `return false` on an empty cleaned value (the state is
unchanged there); `some st'` models `return true` with the filter part,
name and value entries appended and `valueIndex` incremented.
-/
def processAndAddFilter (targetAttribute op : String) (rawValue : String)
    (st : FilterState) : Option FilterState :=
  let value : String := ⟨stripQuotes (jsTrim rawValue.data)⟩
  if value = "" then none
  else
    let key := ":val" ++ toString st.valueIndex
    let hashName := "#attr" ++ toString st.valueIndex
    let parsedValue := typeValue targetAttribute value
    some { valueIndex := st.valueIndex + 1,
           filterParts := st.filterParts ++ [hashName ++ " " ++ op ++ " " ++ key],
           exprNames := st.exprNames ++ [(hashName, targetAttribute)],
           exprValues := st.exprValues ++ [(key, parsedValue)] }

/-! ### The store collaborator and `smartQuery` -/

/-- One entry of `Table.AttributeDefinitions` as this code reads it. -/
structure AttrDef where
  AttributeName : Option String
deriving DecidableEq, Repr

/-- The table description returned by `getTableSchema`, as this code reads
it: only `AttributeDefinitions` is consulted. -/
structure TableDesc where
  AttributeDefinitions : Option (List AttrDef)
deriving DecidableEq, Repr

/-- An unmarshalled item: an object, i.e. an association list of fields. -/
abbrev Rec := List (String × Val)

/-- The argument object of a `ScanCommand`, at the unmarshalled level
(marshalling of the value map belongs to the excluded collaborator). -/
structure ScanIn where
  tableName : String
  filterExpression : Option String
  expressionAttributeNames : Option (List (String × String))
  expressionAttributeValues : Option (List (String × Val))
  limit : Option JSNum
deriving DecidableEq, Repr

/-- One call made to the store collaborator. -/
inductive StoreCall where
  | describe (tableName : String)
  | scan (input : ScanIn)
deriving DecidableEq, Repr

/-- The store collaborator: `DescribeTableCommand` and `ScanCommand` sends,
each of which may fail with an error message. -/
structure Store where
  describeTable : String → Except String TableDesc
  scan : ScanIn → Except String (List Rec)

/-- Embedding of `getTableSchema` (src/mcp-dynamo/index.ts lines 151–160): sends a
`DescribeTableCommand` and catches every error, returning `null`. -/
def getTableSchema (store : Store) (tableName : String) : Option TableDesc :=
  (store.describeTable tableName).toOption

/-- The argument object of `smartQuery` (`params`): `tableName`,
`queryText` and the optional `limit`, each possibly absent. -/
structure SmartParams where
  tableName : Option String
  queryText : Option String
  limit : Option JSNum
deriving DecidableEq, Repr

/-- The result object of `smartQuery`. -/
structure SmartResult where
  success : Bool
  items : List Rec
  message : String
  count : Nat
  errorType : Option String
deriving DecidableEq, Repr

def invalidArgumentResult : SmartResult :=
  { success := false, items := [], message := "tableName and queryText are required",
    count := 0, errorType := some "InvalidArgument" }

def schemaErrorResult (tableName : String) : SmartResult :=
  { success := false, items := [],
    message := "Could not retrieve schema for table " ++ tableName ++ ".",
    count := 0, errorType := some "SchemaError" }

def internalErrorResult (e : String) : SmartResult :=
  { success := false, items := [], message := "SmartQuery failed: " ++ e,
    count := 0, errorType := some "InternalError" }

def invalidFilterResult : SmartResult :=
  { success := false, items := [],
    message := "SmartQuery could not generate a valid filter expression from the natural language query. Please be more specific or use the exact attribute name.",
    count := 0, errorType := some "InvalidFilter" }

/-- Embedding of `tableSchema.AttributeDefinitions.map(def => def.AttributeName).filter(name => name)`
(part_000 line 309): collect the names, dropping absent and empty ones. -/
def attributeNamesOf (defs : List AttrDef) : List String :=
  (defs.filterMap (fun d => d.AttributeName)).filter (fun n => !(n = ""))

/-- Embedding of `attributeNames.filter(amount/value).length > 0 ? [0] : null`
(part_000 lines 322–323): the first attribute whose lowercased name
contains `amount` or `value`. -/
def numericFieldOf (attributeNames : List String) : Option String :=
  (attributeNames.filter (fun n =>
    containsS (lowerS n) "amount" || containsS (lowerS n) "value")).head?

/-- Superlative trigger, descending direction (part_000 line 325). -/
def isHighestOf (lowerQuery : String) : Bool :=
  containsS lowerQuery "highest" || containsS lowerQuery "maximum" ||
    containsS lowerQuery "max"

/-- Superlative trigger, ascending direction (part_000 line 326). -/
def isLowestOf (lowerQuery : String) : Bool :=
  containsS lowerQuery "lowest" || containsS lowerQuery "minimum" ||
    containsS lowerQuery "min"

/-- Embedding of `Number(item[f] ?? 0) || 0` (part_000 lines 339–340): the sort key of
an item, with a missing field, `null`, and non-numeric coercions all
collapsing to `0`. -/
def sortKeyNum (f : String) (r : Rec) : JSNum :=
  match r.lookup f with
  | none => ⟨0, 0⟩
  | some (Val.num n) => n
  | some (Val.str s) => (jsNumberFinite s).getD ⟨0, 0⟩
  | some (Val.bool b) => if b then ⟨1, 0⟩ else ⟨0, 0⟩
  | some Val.null => ⟨0, 0⟩

/-- The comparator of part_000 lines 337–341 as a boolean "may precede"
relation: descending by sort key when `isHighest`, ascending otherwise.
`Array.prototype.sort` is stable (ES2019), which a stable sort by this
relation models. -/
def superlativeLe (isHighest : Bool) (f : String) (a b : Rec) : Bool :=
  if isHighest then JSNum.leb (sortKeyNum f b) (sortKeyNum f a)
  else JSNum.leb (sortKeyNum f a) (sortKeyNum f b)

/-- Relation form of `superlativeLe`, decidable, for the sort. -/
def superlativeRel (isHighest : Bool) (f : String) (a b : Rec) : Prop :=
  superlativeLe isHighest f a b = true

instance (isHighest : Bool) (f : String) : DecidableRel (superlativeRel isHighest f) :=
  fun a b => instDecidableEqBool (superlativeLe isHighest f a b) true

/-- Embedding of `params.limit || 1` (part_000 lines 345, 347): absent or (numerically)
zero falls back to `1`. -/
def jsOrOne (limit : Option JSNum) : JSNum :=
  match limit with
  | none => ⟨1, 0⟩
  | some q => if q.mant = 0 then ⟨1, 0⟩ else q

/-- Truncation toward zero (`ToIntegerOrInfinity` on a finite number):
`Int.div` uses the T-rounding convention. -/
def JSNum.truncInt (n : JSNum) : Int := Int.tdiv n.mant (pow10 n.dexp)

/-- Model of `l.slice(0, lim)` for a finite number `lim`: truncate toward zero, a
negative end counts from the end of the list. -/
def jsSliceTo (lim : JSNum) (l : List α) : List α :=
  let t := lim.truncInt
  if t < 0 then l.take ((l.length : Int) + t).toNat
  else l.take t.toNat

/--
Embedding of section A of `smartQuery` (part_000 lines 328–349): the
superlative path.  Full unfiltered scan, stable sort by the numeric
coercion of field `f` (descending when `isHighest`), then
`slice(0, params.limit || 1)`.  Returns the result together with the scan
calls made.
-/
def runSuperlative (store : Store) (tableName : String) (limit : Option JSNum)
    (isHighest : Bool) (f : String) : SmartResult × List StoreCall :=
  let scanIn : ScanIn :=
    { tableName, filterExpression := none, expressionAttributeNames := none,
      expressionAttributeValues := none, limit := none }
  match store.scan scanIn with
  | .error e => (internalErrorResult e, [StoreCall.scan scanIn])
  | .ok scanned =>
    let sorted := scanned.insertionSort (superlativeRel isHighest f)
    let items := jsSliceTo (jsOrOne limit) sorted
    ({ success := true, items,
       message := "SmartQuery executed: returning " ++
         (if isHighest then "highest" else "lowest") ++ " " ++ f ++
         " item(s) by scanning the table.",
       count := items.length, errorType := none }, [StoreCall.scan scanIn])

/--
Embedding of section B and C of `smartQuery` (part_000 lines 351–490): the
triple-extraction cascade, filter assembly and the filtered scan.  Returns
the result together with the scan calls made (one or none).
-/
def runCascade (store : Store) (tableName queryText : String) (limit : Option JSNum)
    (attributeNames : List String) : SmartResult × List StoreCall :=
  let impliedTargetAttribute := findBestAttributeMatch queryText attributeNames
  let st1 : Option FilterState :=
    match impliedTargetAttribute with
    | some attr =>
      match naturalOpMatch queryText with
      | some (g1, g2) =>
        let operatorPhrase := lowerS g1
        let op :=
          if containsS operatorPhrase "after" || containsS operatorPhrase "greater than" then ">"
          else if containsS operatorPhrase "before" || containsS operatorPhrase "less than" then "<"
          else "="
        processAndAddFilter attr op g2 initFilterState
      | none => none
    | none => none
  let st2 : Option FilterState :=
    match st1 with
    | some s => some s
    | none =>
      match explicitMatch queryText with
      | some (g1, op, g3) =>
        match findBestAttributeMatch g1 attributeNames with
        | some matchedAttr => processAndAddFilter matchedAttr op g3 initFilterState
        | none => none
      | none => none
  let st3 : Option FilterState :=
    match st2 with
    | some s => some s
    | none =>
      match simpleMatch queryText with
      | some (g1, g2) =>
        match findBestAttributeMatch g1 attributeNames with
        | some matchedAttr => processAndAddFilter matchedAttr "=" g2 initFilterState
        | none => none
      | none => none
  match st3 with
  | some st =>
    let filterExpression := String.intercalate " AND " st.filterParts
    let scanIn : ScanIn :=
      { tableName,
        filterExpression := some filterExpression,
        expressionAttributeNames := if st.exprNames.length > 0 then some st.exprNames else none,
        expressionAttributeValues := if st.exprValues.length > 0 then some st.exprValues else none,
        limit }
    match store.scan scanIn with
    | .error e => (internalErrorResult e, [StoreCall.scan scanIn])
    | .ok items =>
      ({ success := true, items,
         message := "SmartQuery executed successfully on table " ++ tableName ++
           ". Filter: " ++ filterExpression,
         count := items.length, errorType := none }, [StoreCall.scan scanIn])
  | none => (invalidFilterResult, [])

/--
Embedding of `smartQuery` (part_000 lines 288–501): validation, schema
fetch, the superlative path, and otherwise the cascade.  The second
component is the trace of store calls, in order.
-/
def smartQuery (store : Store) (params : SmartParams) : SmartResult × List StoreCall :=
  match params.tableName, params.queryText with
  | some tableName, some queryText =>
    if tableName = "" || queryText = "" then (invalidArgumentResult, [])
    else
      match getTableSchema store tableName with
      | none => (schemaErrorResult tableName, [StoreCall.describe tableName])
      | some tableSchema =>
        match tableSchema.AttributeDefinitions with
        | none => (schemaErrorResult tableName, [StoreCall.describe tableName])
        | some defs =>
          let attributeNames := attributeNamesOf defs
          let lowerQuery := lowerS queryText
          let numericField := numericFieldOf attributeNames
          let isHighest := isHighestOf lowerQuery
          let isLowest := isLowestOf lowerQuery
          match numericField, isHighest || isLowest with
          | some f, true =>
            let r := runSuperlative store tableName params.limit isHighest f
            (r.1, StoreCall.describe tableName :: r.2)
          | _, _ =>
            let r := runCascade store tableName queryText params.limit attributeNames
            (r.1, StoreCall.describe tableName :: r.2)
  | _, _ => (invalidArgumentResult, [])

/-! ### Fixtures

A concrete trade-table schema (the one named by the specification's
end-to-end properties) and a store over it whose scan behaviour is a
parameter, so that theorems can quantify over the data. -/

def tradesAttrs : List String := ["TradeId", "Amount", "SourceCountry", "TradeDate"]

def tradesDefs : List AttrDef := tradesAttrs.map (fun n => ⟨some n⟩)

def tradesTable : TableDesc := ⟨some tradesDefs⟩

/-- A store that describes the `Trades` table with the fixture schema and
scans through the given function. -/
def tradesStoreWith (scanF : ScanIn → Except String (List Rec)) : Store :=
  { describeTable := fun t => if t = "Trades" then .ok tradesTable else .error "no such table",
    scan := scanF }

/-- The scan input `smartQuery` builds for `"Amount > 1000"` over the
fixture schema. -/
def amountScanIn : ScanIn :=
  { tableName := "Trades", filterExpression := some "#attr0 > :val0",
    expressionAttributeNames := some [("#attr0", "Amount")],
    expressionAttributeValues := some [(":val0", Val.num ⟨1000, 0⟩)],
    limit := none }

/-- The full unfiltered scan input of the superlative path. -/
def unfilteredScanIn (tableName : String) : ScanIn :=
  { tableName, filterExpression := none, expressionAttributeNames := none,
    expressionAttributeValues := none, limit := none }

/-! ### Structural lemmas about `smartQuery` -/

/-- With valid arguments and a successful schema fetch, `smartQuery` is the
superlative path when a numeric field and a superlative keyword are both
present, and the cascade otherwise; either way the describe call is first
in the trace. -/
theorem smartQuery_valid (store : Store) (tn qt : String) (lim : Option JSNum)
    (htn : tn ≠ "") (hqt : qt ≠ "")
    (tbl : TableDesc) (defs : List AttrDef)
    (hdesc : store.describeTable tn = Except.ok tbl)
    (hdefs : tbl.AttributeDefinitions = some defs) :
    smartQuery store ⟨some tn, some qt, lim⟩ =
      match numericFieldOf (attributeNamesOf defs),
            isHighestOf (lowerS qt) || isLowestOf (lowerS qt) with
      | some f, true =>
        let r := runSuperlative store tn lim (isHighestOf (lowerS qt)) f
        (r.1, StoreCall.describe tn :: r.2)
      | _, _ =>
        let r := runCascade store tn qt lim (attributeNamesOf defs)
        (r.1, StoreCall.describe tn :: r.2) := by
  unfold smartQuery getTableSchema
  dsimp only
  rw [if_neg (by simp [htn, hqt]), hdesc]
  dsimp only [Except.toOption]
  rw [hdefs]

theorem pow10_cast_rat (k : Nat) : ((pow10 k : Int) : ℚ) = (10 : ℚ) ^ k := by
  induction k with
  | zero => simp [pow10]
  | succ n ih => simp [pow10, pow_succ, ih]; ring

theorem JSNum.leb_iff_toRat (a b : JSNum) :
    JSNum.leb a b = true ↔ a.toRat ≤ b.toRat := by
  unfold JSNum.leb JSNum.toRat
  rw [decide_eq_true_iff,
    div_le_div_iff₀ (by positivity) (by positivity),
    ← pow10_cast_rat, ← pow10_cast_rat, ← Int.cast_mul, ← Int.cast_mul, Int.cast_le]

/-- The descending sort relation holds exactly when the denoted sort keys
compare accordingly. -/
theorem superlativeRel_true_iff (f : String) (a b : Rec) :
    superlativeRel true f a b ↔ (sortKeyNum f b).toRat ≤ (sortKeyNum f a).toRat := by
  unfold superlativeRel superlativeLe
  simp [JSNum.leb_iff_toRat]

/-- The ascending sort relation holds exactly when the denoted sort keys
compare accordingly. -/
theorem superlativeRel_false_iff (f : String) (a b : Rec) :
    superlativeRel false f a b ↔ (sortKeyNum f a).toRat ≤ (sortKeyNum f b).toRat := by
  unfold superlativeRel superlativeLe
  simp [JSNum.leb_iff_toRat]

instance (isHighest : Bool) (f : String) : IsTrans Rec (superlativeRel isHighest f) := by
  constructor
  intro a b c hab hbc
  cases isHighest
  · rw [superlativeRel_false_iff] at hab hbc ⊢
    exact le_trans hab hbc
  · rw [superlativeRel_true_iff] at hab hbc ⊢
    exact le_trans hbc hab

instance (isHighest : Bool) (f : String) : IsTotal Rec (superlativeRel isHighest f) := by
  constructor
  intro a b
  cases isHighest
  · rw [superlativeRel_false_iff, superlativeRel_false_iff]
    exact le_total _ _
  · rw [superlativeRel_true_iff, superlativeRel_true_iff]
    exact le_total _ _

/-- Every scan the cascade performs carries a filter expression. -/
theorem runCascade_scan_filter (store : Store) (tn qt : String) (lim : Option JSNum)
    (attrs : List String) (s : ScanIn)
    (hs : StoreCall.scan s ∈ (runCascade store tn qt lim attrs).2) :
    s.filterExpression.isSome = true := by
  unfold runCascade at hs
  dsimp only at hs
  split at hs
  · split at hs <;>
      · simp only [List.mem_singleton, StoreCall.scan.injEq] at hs
        subst hs
        rfl
  · simp at hs

/-- The cascade's result always reports `count` equal to the number of
items. -/
theorem runCascade_count (store : Store) (tn qt : String) (lim : Option JSNum)
    (attrs : List String) :
    (runCascade store tn qt lim attrs).1.count =
      (runCascade store tn qt lim attrs).1.items.length := by
  unfold runCascade
  dsimp only
  split
  · split <;> rfl
  · rfl

/-- The superlative path's result always reports `count` equal to the
number of items. -/
theorem runSuperlative_count (store : Store) (tn : String) (lim : Option JSNum)
    (isHighest : Bool) (f : String) :
    (runSuperlative store tn lim isHighest f).1.count =
      (runSuperlative store tn lim isHighest f).1.items.length := by
  unfold runSuperlative
  dsimp only
  split <;> rfl

/-- When no cascade strategy resolves an attribute, the cascade fails with
`InvalidFilter` and performs no scan. -/
theorem runCascade_invalidFilter (store : Store) (tn qt : String) (lim : Option JSNum)
    (attrs : List String)
    (h1 : findBestAttributeMatch qt attrs = none)
    (h2 : ∀ g1 op g3, explicitMatch qt = some (g1, op, g3) →
      findBestAttributeMatch g1 attrs = none)
    (h3 : ∀ g1 g2, simpleMatch qt = some (g1, g2) →
      findBestAttributeMatch g1 attrs = none) :
    runCascade store tn qt lim attrs = (invalidFilterResult, []) := by
  unfold runCascade
  dsimp only
  split
  case _ st heq =>
    exfalso
    rw [h1] at heq
    dsimp only at heq
    rcases hE : explicitMatch qt with _ | ⟨g1, op, g3⟩ <;> rw [hE] at heq <;> dsimp only at heq
    · rcases hS : simpleMatch qt with _ | ⟨s1, s2⟩ <;> rw [hS] at heq <;> dsimp only at heq
      · cases heq
      · rw [h3 s1 s2 hS] at heq
        dsimp only at heq
        cases heq
    · rw [h2 g1 op g3 hE] at heq
      dsimp only at heq
      rcases hS : simpleMatch qt with _ | ⟨s1, s2⟩ <;> rw [hS] at heq <;> dsimp only at heq
      · cases heq
      · rw [h3 s1 s2 hS] at heq
        dsimp only at heq
        cases heq
  case _ => rfl

/-! ### The claims -/

/-- C5: for every text and sequence of attribute names, if some attribute
name appears verbatim (case-insensitively) as a substring of the text —
i.e. the direct-match search finds a first such attribute `a` in schema
order — then the resolver returns exactly that `a`, regardless of the
keyword-class table (direct match always wins); moreover `a` is indeed a
listed attribute occurring in the text. -/
theorem C5_direct_match_precedence (text : String) (attrs : List String) (a : String)
    (h : attrs.find? (fun attr => containsS (lowerS text) (lowerS attr)) = some a) :
    findBestAttributeMatch text attrs = some a ∧
      containsS (lowerS text) (lowerS a) = true ∧ a ∈ attrs := by
  refine ⟨?_, ?_, List.mem_of_find?_eq_some h⟩
  · unfold findBestAttributeMatch
    dsimp only
    have h' : attrs.find?
        (fun attr => containsSub (lowerChars text.data) (lowerChars attr.data)) = some a := h
    rw [h']
  · have h2 : (fun attr => containsS (lowerS text) (lowerS attr)) a = true :=
      @List.find?_some String (fun attr => containsS (lowerS text) (lowerS attr)) a attrs h
    simpa using h2

/-- C5 witness: in `"source Amount"` against `["Amount", "SourceCountry"]`
the direct match on `Amount` wins although the keyword rule for `source`
would map to `SourceCountry`. -/
theorem C5_direct_match_precedence_witness :
    (["Amount", "SourceCountry"].find?
        (fun attr => containsS (lowerS "source Amount") (lowerS attr)) = some "Amount") ∧
      (findBestAttributeMatch "source Amount" ["Amount", "SourceCountry"] = some "Amount" ∧
        containsS (lowerS "source Amount") (lowerS "Amount") = true ∧
        "Amount" ∈ ["Amount", "SourceCountry"]) :=
  ⟨by decide, C5_direct_match_precedence "source Amount" ["Amount", "SourceCountry"] "Amount" (by decide)⟩

/-- C7: when `tableName` or `queryText` is missing, `smartQuery` returns
`success:false` with `errorType "InvalidArgument"` and contacts neither the
schema collaborator nor the scan collaborator (empty call trace). -/
theorem C7_missing_input (store : Store) (params : SmartParams)
    (h : params.tableName = none ∨ params.queryText = none) :
    smartQuery store params = (invalidArgumentResult, []) ∧
      (smartQuery store params).1.success = false ∧
      (smartQuery store params).1.errorType = some "InvalidArgument" ∧
      (smartQuery store params).2 = [] := by
  obtain ⟨tn?, qt?, lim⟩ := params
  have key : smartQuery store ⟨tn?, qt?, lim⟩ = (invalidArgumentResult, []) := by
    rcases h with h | h <;> subst h
    · cases qt? <;> rfl
    · cases tn? <;> rfl
  exact ⟨key, by rw [key]; rfl, by rw [key]; rfl, by rw [key]⟩

/-- C7 witness: the empty invocation `smartQuery({})`. -/
theorem C7_missing_input_witness :
    ((⟨none, none, none⟩ : SmartParams).tableName = none ∨
        (⟨none, none, none⟩ : SmartParams).queryText = none) ∧
      (smartQuery (tradesStoreWith (fun _ => .ok [])) ⟨none, none, none⟩ =
          (invalidArgumentResult, []) ∧
        (smartQuery (tradesStoreWith (fun _ => .ok [])) ⟨none, none, none⟩).1.success = false ∧
        (smartQuery (tradesStoreWith (fun _ => .ok [])) ⟨none, none, none⟩).1.errorType =
          some "InvalidArgument" ∧
        (smartQuery (tradesStoreWith (fun _ => .ok [])) ⟨none, none, none⟩).2 = []) :=
  ⟨Or.inl rfl, C7_missing_input (tradesStoreWith (fun _ => .ok [])) ⟨none, none, none⟩ (Or.inl rfl)⟩

/-- C10: for every store and every invocation, the `count` field of the
result equals the length of its `items` sequence — on the superlative path,
the filtered-scan path, and every failure path (where `items` is empty and
`count` is `0`). -/
theorem C10_count_invariant (store : Store) (params : SmartParams) :
    (smartQuery store params).1.count = (smartQuery store params).1.items.length := by
  obtain ⟨tn?, qt?, lim⟩ := params
  cases tn? with
  | none => rfl
  | some tn =>
    cases qt? with
    | none => rfl
    | some qt =>
      unfold smartQuery
      dsimp only
      split
      · rfl
      · split
        · rfl
        · split
          · rfl
          · split
            · dsimp only
              apply runSuperlative_count
            · dsimp only
              apply runCascade_count

/-- C4: whenever the target attribute's name contains `date` or `time`
(case-insensitively) and the cleaned raw value matches the 4-digit-year
date pattern, value typing yields a string — the date parser's canonical
`YYYY-MM-DD` output, or the raw value itself when date parsing fails — and
never a number; in particular `"2025-02-25"` under `"TradeDate"` stays the
string `"2025-02-25"`, not the number `2025`.  Otherwise a value whose
`parseFloat` is a finite number becomes that number, and anything else
stays a string. -/
theorem C4_date_vs_number_precedence :
    (∀ (attr v : String),
        (containsS (lowerS attr) "date" || containsS (lowerS attr) "time") = true →
        datePatternTest v.data = true →
        ∃ s, typeValue attr v = Val.str s ∧
          (jsDateToISO v = some s ∨ (jsDateToISO v = none ∧ s = v)) ∧
          ∀ n, typeValue attr v ≠ Val.num n) ∧
      typeValue "TradeDate" "2025-02-25" = Val.str "2025-02-25" ∧
      (∀ (attr v : String) (n : JSNum),
        ((containsS (lowerS attr) "date" || containsS (lowerS attr) "time") = false ∨
          datePatternTest v.data = false) →
        jsParseFloatFinite v = some n → typeValue attr v = Val.num n) ∧
      (∀ (attr v : String),
        ((containsS (lowerS attr) "date" || containsS (lowerS attr) "time") = false ∨
          datePatternTest v.data = false) →
        jsParseFloatFinite v = none → typeValue attr v = Val.str v) := by
  refine ⟨?_, rfl, ?_, ?_⟩
  · intro attr v hattr hpat
    unfold typeValue
    rw [hattr, hpat]
    dsimp only
    rcases hiso : jsDateToISO v with _ | d
    · exact ⟨v, rfl, Or.inr ⟨rfl, rfl⟩, fun n => by simp⟩
    · exact ⟨d, rfl, Or.inl rfl, fun n => by simp⟩
  · intro attr v n hfalse hparse
    unfold typeValue
    have hcond : ((containsS (lowerS attr) "date" || containsS (lowerS attr) "time") &&
        datePatternTest v.data) = false := by
      rcases hfalse with hf | hf <;> simp [hf]
    dsimp only
    rw [hcond, hparse]
    rfl
  · intro attr v hfalse hparse
    unfold typeValue
    have hcond : ((containsS (lowerS attr) "date" || containsS (lowerS attr) "time") &&
        datePatternTest v.data) = false := by
      rcases hfalse with hf | hf <;> simp [hf]
    dsimp only
    rw [hcond, hparse]
    rfl

/-- C4 witness: the date conjunct at `("TradeDate", "2025-02-25")` and the
number conjunct at `("Amount", "1000")`. -/
theorem C4_date_vs_number_precedence_witness :
    ((containsS (lowerS "TradeDate") "date" || containsS (lowerS "TradeDate") "time") = true ∧
        datePatternTest "2025-02-25".data = true ∧
        (∃ s, typeValue "TradeDate" "2025-02-25" = Val.str s ∧
          (jsDateToISO "2025-02-25" = some s ∨
            (jsDateToISO "2025-02-25" = none ∧ s = "2025-02-25")) ∧
          ∀ n, typeValue "TradeDate" "2025-02-25" ≠ Val.num n)) ∧
      typeValue "Amount" "1000" = Val.num ⟨1000, 0⟩ :=
  ⟨⟨by decide, by decide,
    C4_date_vs_number_precedence.1 "TradeDate" "2025-02-25" (by decide) (by decide)⟩,
   C4_date_vs_number_precedence.2.2.1 "Amount" "1000" ⟨1000, 0⟩ (Or.inl (by decide)) rfl⟩

/-- A trades store whose scans return no items. -/
def emptyTradesStore : Store := tradesStoreWith (fun _ => .ok [])

/-- C1: for the fixture schema `["TradeId","Amount","SourceCountry",
"TradeDate"]` and query text `"Amount > 1000"`, `smartQuery` builds the
filter expression `#attr0 > :val0` with name map `#attr0 ↦ "Amount"` and
value map `:val0 ↦ 1000` (a number), invokes the scan collaborator with
exactly that expression and those two maps (and nothing else), and — when
the scan succeeds — returns `success:true`. -/
theorem C1_explicit_operator_end_to_end (scanF : ScanIn → Except String (List Rec)) :
    (smartQuery (tradesStoreWith scanF) ⟨some "Trades", some "Amount > 1000", none⟩).2 =
      [StoreCall.describe "Trades", StoreCall.scan amountScanIn] ∧
      ∀ items, scanF amountScanIn = .ok items →
        (smartQuery (tradesStoreWith scanF) ⟨some "Trades", some "Amount > 1000", none⟩).1 =
          { success := true, items,
            message := "SmartQuery executed successfully on table Trades. Filter: #attr0 > :val0",
            count := items.length, errorType := none } := by
  have key : smartQuery (tradesStoreWith scanF) ⟨some "Trades", some "Amount > 1000", none⟩ =
      ((match scanF amountScanIn with
        | .error e => (internalErrorResult e, [StoreCall.scan amountScanIn])
        | .ok items =>
          ({ success := true, items,
             message := "SmartQuery executed successfully on table Trades. Filter: #attr0 > :val0",
             count := items.length, errorType := none }, [StoreCall.scan amountScanIn])).1,
       StoreCall.describe "Trades" ::
        (match scanF amountScanIn with
        | .error e => (internalErrorResult e, [StoreCall.scan amountScanIn])
        | .ok items =>
          ({ success := true, items,
             message := "SmartQuery executed successfully on table Trades. Filter: #attr0 > :val0",
             count := items.length, errorType := none }, [StoreCall.scan amountScanIn])).2) := rfl
  constructor
  · rw [key]
    cases scanF amountScanIn <;> rfl
  · intro items hok
    rw [key, hok]

/-- C1 witness: the empty-result store. -/
theorem C1_explicit_operator_end_to_end_witness :
    (smartQuery emptyTradesStore ⟨some "Trades", some "Amount > 1000", none⟩).2 =
      [StoreCall.describe "Trades", StoreCall.scan amountScanIn] ∧
      (smartQuery emptyTradesStore ⟨some "Trades", some "Amount > 1000", none⟩).1 =
        { success := true, items := [],
          message := "SmartQuery executed successfully on table Trades. Filter: #attr0 > :val0",
          count := 0, errorType := none } :=
  ⟨(C1_explicit_operator_end_to_end (fun _ => .ok [])).1,
   (C1_explicit_operator_end_to_end (fun _ => .ok [])).2 [] rfl⟩

/-- C3 counterexample: for `"trades after 2025-02-25"` against the fixture
schema, the resolver does NOT map the query to `TradeDate` — `"after"` is
not a trigger of the temporal keyword class (`when`/`day`/`time`/`period`
are) and no attribute name occurs in the text, so the resolver returns no
match, no operator is selected, and `smartQuery` fails with
`InvalidFilter` without scanning — contradicting the claimed mapping to
`TradeDate` with operator `>`. -/
theorem C3_natural_phrase_counterexample :
    findBestAttributeMatch "trades after 2025-02-25" tradesAttrs = none ∧
      findBestAttributeMatch "trades after 2025-02-25" (attributeNamesOf tradesDefs) = none ∧
      smartQuery emptyTradesStore ⟨some "Trades", some "trades after 2025-02-25", none⟩ =
        (invalidFilterResult, [StoreCall.describe "Trades"]) ∧
      invalidFilterResult.errorType = some "InvalidFilter" ∧
      invalidFilterResult.success = false :=
  ⟨rfl, rfl, rfl, rfl, rfl⟩

/-- The scan input `smartQuery` builds for
`"trades when after 2025-02-25"` over the fixture schema: the temporal
trigger `when` maps to `TradeDate`, the natural operator `after` selects
`>`, and the value is normalized to the string `"2025-02-25"`. -/
def tradeDateScanIn : ScanIn :=
  { tableName := "Trades", filterExpression := some "#attr0 > :val0",
    expressionAttributeNames := some [("#attr0", "TradeDate")],
    expressionAttributeValues := some [(":val0", Val.str "2025-02-25")],
    limit := none }

/-- C3 amended: `"after"` is not a temporal-class trigger (those are
`when`/`day`/`time`/`period`), so `"trades after 2025-02-25"` resolves no
attribute and `smartQuery` returns `success:false` with errorType
`InvalidFilter` and no scan; a query that does contain a temporal trigger,
`"trades when after 2025-02-25"`, is mapped to `TradeDate` via the
temporal keyword class with operator `>` and value normalized to
`"2025-02-25"`. -/
theorem C3_natural_phrase_amended :
    (findBestAttributeMatch "trades after 2025-02-25" (attributeNamesOf tradesDefs) = none ∧
      smartQuery emptyTradesStore ⟨some "Trades", some "trades after 2025-02-25", none⟩ =
        (invalidFilterResult, [StoreCall.describe "Trades"])) ∧
      (findBestAttributeMatch "trades when after 2025-02-25" (attributeNamesOf tradesDefs) =
        some "TradeDate" ∧
      (smartQuery emptyTradesStore
          ⟨some "Trades", some "trades when after 2025-02-25", none⟩).2 =
        [StoreCall.describe "Trades", StoreCall.scan tradeDateScanIn] ∧
      (smartQuery emptyTradesStore
          ⟨some "Trades", some "trades when after 2025-02-25", none⟩).1.success = true) :=
  ⟨⟨rfl, rfl⟩, rfl, rfl, rfl⟩

/-- The description of the optional `limit` parameter in the declared tool
metadata `DYNAMODB_SMART_QUERY_TOOL` (part_000 line 521). -/
def limitParamDescription : String :=
  "Optional: The maximum number of items to return (default is 100)."

/-- C9: the declared metadata says the default limit is 100, but on the
filtered-scan path with `limit` absent the scan collaborator is invoked
with NO limit at all (`Limit: params.limit` passes `undefined` through) —
the documented default of 100 is never applied. -/
theorem C9_limit_default_not_applied :
    containsS limitParamDescription "default is 100" = true ∧
      (smartQuery emptyTradesStore ⟨some "Trades", some "Amount > 1000", none⟩).2 =
        [StoreCall.describe "Trades", StoreCall.scan amountScanIn] ∧
      amountScanIn.limit = none :=
  ⟨by decide, rfl, rfl⟩

/-- A failed schema fetch (describe error, caught inside `getTableSchema`)
yields the `SchemaError` result with only the describe call made. -/
theorem smartQuery_describe_error (store : Store) (tn qt : String) (lim : Option JSNum)
    (htn : tn ≠ "") (hqt : qt ≠ "") (e : String)
    (hdesc : store.describeTable tn = Except.error e) :
    smartQuery store ⟨some tn, some qt, lim⟩ =
      (schemaErrorResult tn, [StoreCall.describe tn]) := by
  unfold smartQuery getTableSchema
  dsimp only
  rw [if_neg (by simp [htn, hqt]), hdesc]
  rfl

/-- A schema with no attribute definitions yields the `SchemaError` result
with only the describe call made. -/
theorem smartQuery_defs_none (store : Store) (tn qt : String) (lim : Option JSNum)
    (htn : tn ≠ "") (hqt : qt ≠ "") (tbl : TableDesc)
    (hdesc : store.describeTable tn = Except.ok tbl)
    (hdefs : tbl.AttributeDefinitions = none) :
    smartQuery store ⟨some tn, some qt, lim⟩ =
      (schemaErrorResult tn, [StoreCall.describe tn]) := by
  unfold smartQuery getTableSchema
  dsimp only
  rw [if_neg (by simp [htn, hqt]), hdesc]
  dsimp only [Except.toOption]
  rw [hdefs]

/-- C6: when the superlative path does not apply and none of the three
cascade strategies resolves an attribute — the whole-query resolution
fails, and the resolution of the captured token fails for whatever the
explicit-operator and bare-attribute-value patterns match — `smartQuery`
returns `success:false` with errorType `InvalidFilter` and makes no scan
call. -/
theorem C6_unresolvable_invalid_filter (store : Store) (tn qt : String)
    (lim : Option JSNum) (tbl : TableDesc) (defs : List AttrDef)
    (htn : tn ≠ "") (hqt : qt ≠ "")
    (hdesc : store.describeTable tn = Except.ok tbl)
    (hdefs : tbl.AttributeDefinitions = some defs)
    (hsup : ¬((isHighestOf (lowerS qt) || isLowestOf (lowerS qt)) = true ∧
      (numericFieldOf (attributeNamesOf defs)).isSome = true))
    (h1 : findBestAttributeMatch qt (attributeNamesOf defs) = none)
    (h2 : ∀ g1 op g3, explicitMatch qt = some (g1, op, g3) →
      findBestAttributeMatch g1 (attributeNamesOf defs) = none)
    (h3 : ∀ g1 g2, simpleMatch qt = some (g1, g2) →
      findBestAttributeMatch g1 (attributeNamesOf defs) = none) :
    smartQuery store ⟨some tn, some qt, lim⟩ =
        (invalidFilterResult, [StoreCall.describe tn]) ∧
      (smartQuery store ⟨some tn, some qt, lim⟩).1.success = false ∧
      (smartQuery store ⟨some tn, some qt, lim⟩).1.errorType = some "InvalidFilter" ∧
      ∀ s, StoreCall.scan s ∉ (smartQuery store ⟨some tn, some qt, lim⟩).2 := by
  have key : smartQuery store ⟨some tn, some qt, lim⟩ =
      (invalidFilterResult, [StoreCall.describe tn]) := by
    rw [smartQuery_valid store tn qt lim htn hqt tbl defs hdesc hdefs]
    have hcas := runCascade_invalidFilter store tn qt lim (attributeNamesOf defs) h1 h2 h3
    rcases hnf : numericFieldOf (attributeNamesOf defs) with _ | f
    · dsimp only
      rw [hcas]
    · rcases htrig : isHighestOf (lowerS qt) || isLowestOf (lowerS qt) with _ | _
      · dsimp only
        rw [hcas]
      · exact absurd ⟨htrig, by rw [hnf]; rfl⟩ hsup
  refine ⟨key, by rw [key]; rfl, by rw [key]; rfl, ?_⟩
  intro s hs
  rw [key] at hs
  simp at hs

/-- C6 witness: `smartQuery("Trades", "xyz123 blah")` over the fixture
schema resolves nothing and fails with `InvalidFilter`, with no scan. -/
theorem C6_unresolvable_invalid_filter_witness :
    smartQuery emptyTradesStore ⟨some "Trades", some "xyz123 blah", none⟩ =
        (invalidFilterResult, [StoreCall.describe "Trades"]) ∧
      (smartQuery emptyTradesStore ⟨some "Trades", some "xyz123 blah", none⟩).1.success = false ∧
      (smartQuery emptyTradesStore ⟨some "Trades", some "xyz123 blah", none⟩).1.errorType =
        some "InvalidFilter" ∧
      ∀ s, StoreCall.scan s ∉
        (smartQuery emptyTradesStore ⟨some "Trades", some "xyz123 blah", none⟩).2 :=
  C6_unresolvable_invalid_filter emptyTradesStore "Trades" "xyz123 blah" none
    tradesTable tradesDefs (by decide) (by decide) rfl rfl
    (by decide)
    (by decide)
    (by
      intro g1 op g3 h
      rw [show explicitMatch "xyz123 blah" = none from rfl] at h
      exact Option.noConfusion h)
    (by
      intro g1 g2 h
      rw [show simpleMatch "xyz123 blah" = some ("xyz123", "blah") from rfl] at h
      simp only [Option.some.injEq, Prod.mk.injEq] at h
      obtain ⟨ha, hb⟩ := h
      subst ha
      decide)

theorem containsSub_append_right (a b : List Char) : containsSub (a ++ b) b = true := by
  induction a with
  | nil =>
    rw [List.nil_append, containsSub.eq_def]
    simp
  | cons c t ih =>
    rw [List.cons_append, containsSub.eq_def]
    simp [ih]

/-- A string contains every suffix obtained by appending it. -/
theorem containsS_append_right (a b : String) : containsS (a ++ b) b = true := by
  unfold containsS
  rw [String.data_append]
  exact containsSub_append_right a.data b.data

/-- If the scan the cascade performed failed in the store, the cascade's
result is the `InternalError` result for that error. -/
theorem runCascade_internal (store : Store) (tn qt : String) (lim : Option JSNum)
    (attrs : List String) (s : ScanIn) (e : String)
    (hmem : StoreCall.scan s ∈ (runCascade store tn qt lim attrs).2)
    (hserr : store.scan s = Except.error e) :
    (runCascade store tn qt lim attrs).1 = internalErrorResult e := by
  unfold runCascade at hmem ⊢
  dsimp only at hmem ⊢
  split
  case _ st heq =>
    rw [heq] at hmem
    dsimp only at hmem
    split
    case _ er heq2 =>
      rw [heq2] at hmem
      dsimp only at hmem
      simp only [List.mem_singleton, StoreCall.scan.injEq] at hmem
      subst hmem
      rw [hserr] at heq2
      cases heq2
      rfl
    case _ items heq2 =>
      rw [heq2] at hmem
      dsimp only at hmem
      simp only [List.mem_singleton, StoreCall.scan.injEq] at hmem
      subst hmem
      rw [hserr] at heq2
      cases heq2
  case _ heq =>
    rw [heq] at hmem
    dsimp only at hmem
    simp at hmem

/-- If the scan the superlative path performed failed in the store, the
result is the `InternalError` result for that error. -/
theorem runSuperlative_internal (store : Store) (tn : String) (lim : Option JSNum)
    (isHighest : Bool) (f : String) (s : ScanIn) (e : String)
    (hmem : StoreCall.scan s ∈ (runSuperlative store tn lim isHighest f).2)
    (hserr : store.scan s = Except.error e) :
    (runSuperlative store tn lim isHighest f).1 = internalErrorResult e := by
  unfold runSuperlative at hmem ⊢
  dsimp only at hmem ⊢
  split
  case _ er heq2 =>
    rw [heq2] at hmem
    dsimp only at hmem
    simp only [List.mem_singleton, StoreCall.scan.injEq] at hmem
    subst hmem
    rw [hserr] at heq2
    cases heq2
    rfl
  case _ items heq2 =>
    rw [heq2] at hmem
    dsimp only at hmem
    simp only [List.mem_singleton, StoreCall.scan.injEq] at hmem
    subst hmem
    rw [hserr] at heq2
    cases heq2

/-- C8: with valid arguments, (a) a failing schema fetch produces the
structured `SchemaError` result (the describe error is caught inside
`getTableSchema`, never raised to the caller), and (b) whenever a scan
call recorded in the trace failed in the store, the result is
`success:false` with errorType `InternalError` and a message containing
the underlying error text — `smartQuery` always returns a structured
result (it is a total function into `SmartResult`) rather than
propagating the exception. -/
theorem C8_internal_error_propagation (store : Store) (tn qt : String)
    (lim : Option JSNum) (htn : tn ≠ "") (hqt : qt ≠ "") :
    (∀ e, store.describeTable tn = Except.error e →
      smartQuery store ⟨some tn, some qt, lim⟩ =
        (schemaErrorResult tn, [StoreCall.describe tn])) ∧
      (∀ s e, StoreCall.scan s ∈ (smartQuery store ⟨some tn, some qt, lim⟩).2 →
        store.scan s = Except.error e →
        (smartQuery store ⟨some tn, some qt, lim⟩).1.success = false ∧
        (smartQuery store ⟨some tn, some qt, lim⟩).1.errorType = some "InternalError" ∧
        containsS (smartQuery store ⟨some tn, some qt, lim⟩).1.message e = true) := by
  constructor
  · intro e hdesc
    exact smartQuery_describe_error store tn qt lim htn hqt e hdesc
  · intro s e hmem hserr
    rcases hdt : store.describeTable tn with e' | tbl
    · rw [smartQuery_describe_error store tn qt lim htn hqt e' hdt] at hmem
      simp at hmem
    · rcases hdefs : tbl.AttributeDefinitions with _ | defs
      · rw [smartQuery_defs_none store tn qt lim htn hqt tbl hdt hdefs] at hmem
        simp at hmem
      · have hv := smartQuery_valid store tn qt lim htn hqt tbl defs hdt hdefs
        have key : smartQuery store ⟨some tn, some qt, lim⟩ =
            (internalErrorResult e,
              (smartQuery store ⟨some tn, some qt, lim⟩).2) := by
          rw [hv] at hmem ⊢
          rcases hnf : numericFieldOf (attributeNamesOf defs) with _ | f
          · rw [hnf] at hmem
            dsimp only at hmem ⊢
            rw [List.mem_cons] at hmem
            rcases hmem with h | h
            · exact absurd h (by simp)
            · rw [runCascade_internal store tn qt lim (attributeNamesOf defs) s e h hserr]
          · rw [hnf] at hmem
            rcases htrig : isHighestOf (lowerS qt) || isLowestOf (lowerS qt) with _ | _ <;>
              rw [htrig] at hmem <;> dsimp only at hmem ⊢ <;> rw [List.mem_cons] at hmem
            · rcases hmem with h | h
              · exact absurd h (by simp)
              · rw [runCascade_internal store tn qt lim (attributeNamesOf defs) s e h hserr]
            · rcases hmem with h | h
              · exact absurd h (by simp)
              · rw [runSuperlative_internal store tn lim (isHighestOf (lowerS qt)) f s e h hserr]
        refine ⟨by rw [key]; rfl, by rw [key]; rfl, ?_⟩
        rw [key]
        show containsS ("SmartQuery failed: " ++ e) e = true
        exact containsS_append_right "SmartQuery failed: " e

/-- Evaluation of `slice(0, params.limit || 1)` as `take k` when the limit is absent
(`k = 1`) or a positive natural `k`. -/
theorem jsSliceTo_take (k : Nat) (hk : 0 < k) (lim : Option JSNum)
    (hlim : (lim = none ∧ k = 1) ∨ lim = some ⟨(k : Int), 0⟩) (l : List α) :
    jsSliceTo (jsOrOne lim) l = l.take k := by
  rcases hlim with ⟨h1, h2⟩ | h1
  · subst h1 h2
    rfl
  · subst h1
    have hkz : ((k : Int) ≠ 0) := by
      simpa using Nat.pos_iff_ne_zero.mp hk
    unfold jsOrOne jsSliceTo JSNum.truncInt
    dsimp only
    rw [if_neg hkz]
    have ht : Int.tdiv (k : Int) (pow10 0) = (k : Int) := by
      show Int.tdiv (k : Int) 1 = (k : Int)
      exact Int.tdiv_one _
    rw [ht, if_neg (by omega)]
    simp

/--
C2: with valid arguments and schema, `smartQuery` takes the superlative
path exactly when the lowercased query contains a member of
`{highest, maximum, max}` or `{lowest, minimum, min}` AND some attribute
name contains `amount` or `value` (the first such being the sort key `f`).
On that path it performs one full unfiltered scan, sorts the records by
the numeric coercion of `f` (missing or non-numeric treated as 0) —
descending when a highest-keyword is present, ascending otherwise — and
returns the first `limit` records (default 1) with `count` equal to the
number returned.  When a superlative keyword is present but no attribute
name contains `amount` or `value`, the invocation falls through to the
cascade; and whenever the superlative path does not apply, every scan
performed carries a filter expression (no unfiltered scan happens).
-/
theorem C2_superlative_path (store : Store) (tn qt : String) (lim : Option JSNum)
    (tbl : TableDesc) (defs : List AttrDef)
    (htn : tn ≠ "") (hqt : qt ≠ "")
    (hdesc : store.describeTable tn = Except.ok tbl)
    (hdefs : tbl.AttributeDefinitions = some defs) :
    (∀ (f : String) (scanned : List Rec) (k : Nat),
      numericFieldOf (attributeNamesOf defs) = some f →
      (isHighestOf (lowerS qt) || isLowestOf (lowerS qt)) = true →
      store.scan (unfilteredScanIn tn) = Except.ok scanned →
      0 < k →
      ((lim = none ∧ k = 1) ∨ lim = some ⟨(k : Int), 0⟩) →
      ∃ sorted : List Rec,
        sorted.Perm scanned ∧
        (isHighestOf (lowerS qt) = true →
          sorted.Pairwise (fun a b => (sortKeyNum f b).toRat ≤ (sortKeyNum f a).toRat)) ∧
        (isHighestOf (lowerS qt) = false →
          sorted.Pairwise (fun a b => (sortKeyNum f a).toRat ≤ (sortKeyNum f b).toRat)) ∧
        (smartQuery store ⟨some tn, some qt, lim⟩).1.items = sorted.take k ∧
        (smartQuery store ⟨some tn, some qt, lim⟩).1.count = (sorted.take k).length ∧
        (smartQuery store ⟨some tn, some qt, lim⟩).1.success = true ∧
        (smartQuery store ⟨some tn, some qt, lim⟩).2 =
          [StoreCall.describe tn, StoreCall.scan (unfilteredScanIn tn)]) ∧
      ((isHighestOf (lowerS qt) || isLowestOf (lowerS qt)) = true →
        numericFieldOf (attributeNamesOf defs) = none →
        smartQuery store ⟨some tn, some qt, lim⟩ =
          ((runCascade store tn qt lim (attributeNamesOf defs)).1,
            StoreCall.describe tn :: (runCascade store tn qt lim (attributeNamesOf defs)).2)) ∧
      (¬((isHighestOf (lowerS qt) || isLowestOf (lowerS qt)) = true ∧
          (numericFieldOf (attributeNamesOf defs)).isSome = true) →
        ∀ s, StoreCall.scan s ∈ (smartQuery store ⟨some tn, some qt, lim⟩).2 →
          s.filterExpression.isSome = true) := by
  have hv := smartQuery_valid store tn qt lim htn hqt tbl defs hdesc hdefs
  refine ⟨?_, ?_, ?_⟩
  · intro f scanned k hf htrig hscan hk hlim
    have hscan' : store.scan
        { tableName := tn, filterExpression := none, expressionAttributeNames := none,
          expressionAttributeValues := none, limit := none } = Except.ok scanned := hscan
    have key2 : runSuperlative store tn lim (isHighestOf (lowerS qt)) f =
        ({ success := true,
           items := jsSliceTo (jsOrOne lim)
             (scanned.insertionSort (superlativeRel (isHighestOf (lowerS qt)) f)),
           message := "SmartQuery executed: returning " ++
             (if isHighestOf (lowerS qt) then "highest" else "lowest") ++ " " ++ f ++
             " item(s) by scanning the table.",
           count := (jsSliceTo (jsOrOne lim)
             (scanned.insertionSort (superlativeRel (isHighestOf (lowerS qt)) f))).length,
           errorType := none }, [StoreCall.scan (unfilteredScanIn tn)]) := by
      unfold runSuperlative
      dsimp only
      rw [hscan']
      rfl
    have key : smartQuery store ⟨some tn, some qt, lim⟩ =
        ((runSuperlative store tn lim (isHighestOf (lowerS qt)) f).1,
          StoreCall.describe tn :: (runSuperlative store tn lim (isHighestOf (lowerS qt)) f).2) := by
      rw [hv, hf, htrig]
    refine ⟨scanned.insertionSort (superlativeRel (isHighestOf (lowerS qt)) f),
      List.perm_insertionSort _ _, ?_, ?_, ?_, ?_, ?_, ?_⟩
    · intro hh
      have hs := List.sorted_insertionSort (superlativeRel (isHighestOf (lowerS qt)) f) scanned
      rw [hh] at hs ⊢
      exact hs.imp (fun hab => (superlativeRel_true_iff f _ _).mp hab)
    · intro hh
      have hs := List.sorted_insertionSort (superlativeRel (isHighestOf (lowerS qt)) f) scanned
      rw [hh] at hs ⊢
      exact hs.imp (fun hab => (superlativeRel_false_iff f _ _).mp hab)
    · rw [key, key2]
      exact jsSliceTo_take k hk lim hlim _
    · rw [key, key2]
      dsimp only
      rw [jsSliceTo_take k hk lim hlim]
    · rw [key, key2]
    · rw [key, key2]
  · intro htrig hnone
    rw [hv, hnone, htrig]
  · intro hnsup s hmem
    rw [hv] at hmem
    rcases hnf : numericFieldOf (attributeNamesOf defs) with _ | f
    · rw [hnf] at hmem
      dsimp only at hmem
      rw [List.mem_cons] at hmem
      rcases hmem with h | h
      · exact absurd h (by simp)
      · exact runCascade_scan_filter store tn qt lim (attributeNamesOf defs) s h
    · rcases htrig : isHighestOf (lowerS qt) || isLowestOf (lowerS qt) with _ | _
      · rw [hnf, htrig] at hmem
        dsimp only at hmem
        rw [List.mem_cons] at hmem
        rcases hmem with h | h
        · exact absurd h (by simp)
        · exact runCascade_scan_filter store tn qt lim (attributeNamesOf defs) s h
      · exact absurd ⟨htrig, by rw [hnf]; rfl⟩ hnsup

def recA : Rec := [("Amount", Val.num ⟨5, 0⟩), ("TradeId", Val.str "a")]

def recB : Rec := [("Amount", Val.num ⟨9, 0⟩), ("TradeId", Val.str "b")]

def recC : Rec := [("Amount", Val.num ⟨7, 0⟩), ("TradeId", Val.str "c")]

/-- A trades store whose scans return three items with Amounts 5, 9, 7. -/
def threeItemStore : Store := tradesStoreWith (fun _ => .ok [recA, recB, recC])

/-- C2 witness: `"highest amount"` over the three-item store. -/
theorem C2_superlative_path_witness :
    ∃ sorted : List Rec,
      sorted.Perm [recA, recB, recC] ∧
        (isHighestOf (lowerS "highest amount") = true →
          sorted.Pairwise (fun a b =>
            (sortKeyNum "Amount" b).toRat ≤ (sortKeyNum "Amount" a).toRat)) ∧
        (isHighestOf (lowerS "highest amount") = false →
          sorted.Pairwise (fun a b =>
            (sortKeyNum "Amount" a).toRat ≤ (sortKeyNum "Amount" b).toRat)) ∧
        (smartQuery threeItemStore ⟨some "Trades", some "highest amount", none⟩).1.items =
          sorted.take 1 ∧
        (smartQuery threeItemStore ⟨some "Trades", some "highest amount", none⟩).1.count =
          (sorted.take 1).length ∧
        (smartQuery threeItemStore ⟨some "Trades", some "highest amount", none⟩).1.success = true ∧
        (smartQuery threeItemStore ⟨some "Trades", some "highest amount", none⟩).2 =
          [StoreCall.describe "Trades", StoreCall.scan (unfilteredScanIn "Trades")] :=
  (C2_superlative_path threeItemStore "Trades" "highest amount" none tradesTable tradesDefs
      (by decide) (by decide) rfl rfl).1
    "Amount" [recA, recB, recC] 1 rfl (by decide) rfl (by decide) (Or.inl ⟨rfl, rfl⟩)

/-- A trades store whose scans always fail with `"boom"`. -/
def failingTradesStore : Store := tradesStoreWith (fun _ => .error "boom")

/-- C8 witness: the failing store on the filtered-scan path. -/
theorem C8_internal_error_propagation_witness :
    (StoreCall.scan amountScanIn ∈
        (smartQuery failingTradesStore ⟨some "Trades", some "Amount > 1000", none⟩).2 ∧
      failingTradesStore.scan amountScanIn = Except.error "boom") ∧
      ((smartQuery failingTradesStore ⟨some "Trades", some "Amount > 1000", none⟩).1.success =
          false ∧
        (smartQuery failingTradesStore ⟨some "Trades", some "Amount > 1000", none⟩).1.errorType =
          some "InternalError" ∧
        containsS
          (smartQuery failingTradesStore ⟨some "Trades", some "Amount > 1000", none⟩).1.message
          "boom" = true) :=
  ⟨⟨by decide, rfl⟩,
   (C8_internal_error_propagation failingTradesStore "Trades" "Amount > 1000" none
       (by decide) (by decide)).2
     amountScanIn "boom" (by decide) rfl⟩

end DynamoSmart
